import Mathlib

/-!
Verification development for the configmaster controller (src/main.go).

The controller watches ConfigMap and Secret resources, debounces change
notifications per resource through a timer map, scans Deployments for
references to the changed resource, debounces per-Deployment updates
through a second timer map, and finally submits an annotation-only
strategic merge patch.

The embedding below is a shallow one.  The Go maps
changeTimers : map[ChangeType]*time.Timer and
updateTimers : map[Deployment]*time.Timer are modelled as association
lists from the key type to the absolute expiry time (a natural number);
a *time.Timer scheduled at time t with delay D is represented by the
expiry t + D.  Sequential executions of the event handlers are modelled
by explicit state passing; the timer facility is modelled by a driver
that fires a key's due timer before a later event for the same key is
handled and flushes all remaining timers at the end of a trace.
-/

namespace Configmaster

/-- The ChangeType struct of src/main.go (lines 22-25): the kind of the
changed resource ("ConfigMap" or "Secret") and its name. -/
structure ChangeType where
  type : String
  name : String
deriving DecidableEq, Repr

/-- Association-list lookup, modelling a read m[k] of a Go map. -/
def lookupA {κ α : Type} [DecidableEq κ] : List (κ × α) → κ → Option α
  | [], _ => none
  | (k', a) :: rest, k => if k' = k then some a else lookupA rest k

/-- Association-list update, modelling a Go map assignment m[k] = a:
replaces the entry for k if present, otherwise adds one. -/
def setA {κ α : Type} [DecidableEq κ] : List (κ × α) → κ → α → List (κ × α)
  | [], k, a => [(k, a)]
  | (k', a') :: rest, k, a =>
      if k' = k then (k, a) :: rest else (k', a') :: setA rest k a

/-- Association-list removal, modelling delete(m, k) on a Go map. -/
def removeA {κ α : Type} [DecidableEq κ] : List (κ × α) → κ → List (κ × α)
  | [], _ => []
  | (k', a') :: rest, k =>
      if k' = k then removeA rest k else (k', a') :: removeA rest k

/-- Embeds delayedUpdate (src/main.go lines 117-128), run sequentially at
absolute time t with configured delay D.  If the change already has a live
timer in the map the timer is reset to expire at t + D (timer.Reset(delay));
otherwise a fresh timer expiring at t + D is stored
(changeTimers[change] = time.AfterFunc(delay, ...)). -/
def delayedUpdate (D t : Nat) (change : ChangeType) (m : List (ChangeType × Nat)) :
    List (ChangeType × Nat) :=
  match lookupA m change with
  | some _ => setA m change (t + D)
  | none => setA m change (t + D)

/-- Embeds the expiry callback installed by delayedUpdate
(src/main.go lines 123-126): delete(changeTimers, change) followed by
findAndQueueDeployments(change).  Returns the new map and the list of
dependency-scan invocations the callback performs. -/
def changeTimerFire (change : ChangeType) (m : List (ChangeType × Nat)) :
    List (ChangeType × Nat) × List ChangeType :=
  (removeA m change, [change])

/-- Driver for sequential executions: the notification for change at
absolute time t is handled after the change's own timer, when due
(expiry ≤ t), has fired (the AfterFunc callback of src/main.go lines
123-126 removes the map entry and runs the dependency scan at its expiry
time); then delayedUpdate runs.  Timers of other keys are never consulted
by this handler, exactly as in the source, where delayedUpdate reads and
writes only changeTimers[change]. -/
def stepNotify (D t : Nat) (change : ChangeType) (m : List (ChangeType × Nat)) :
    List (ChangeType × Nat) × List (Nat × ChangeType) :=
  match lookupA m change with
  | some e =>
      if e ≤ t then
        let fired := changeTimerFire change m
        (delayedUpdate D t change fired.1, fired.2.map (fun c => (e, c)))
      else
        (delayedUpdate D t change m, [])
  | none => (delayedUpdate D t change m, [])

/-- Runs a time-ordered trace of notifications through stepNotify,
collecting the settled-change callbacks as (firing time, descriptor)
pairs. -/
def runTrace (D : Nat) : List (Nat × ChangeType) → List (ChangeType × Nat) →
    List (ChangeType × Nat) × List (Nat × ChangeType)
  | [], m => (m, [])
  | (t, c) :: rest, m =>
      let s := stepNotify D t c m
      let r := runTrace D rest s.1
      (r.1, s.2 ++ r.2)

/-- After the trace ends every timer still pending fires at its expiry. -/
def flushTimers : List (ChangeType × Nat) → List (Nat × ChangeType)
  | [] => []
  | (k, e) :: rest => (e, k) :: flushTimers rest

/-- All settled-change callbacks caused by a notification trace started
from an empty timer map, as (firing time, descriptor) pairs. -/
def callbacksOf (D : Nat) (trace : List (Nat × ChangeType)) : List (Nat × ChangeType) :=
  (runTrace D trace []).2 ++ flushTimers (runTrace D trace []).1

/-- A burst: strictly increasing times with every gap below the delay D. -/
def isBurst (D : Nat) : List Nat → Bool
  | [] => true
  | [_] => true
  | a :: b :: rest => (decide (a < b) && decide (b - a < D)) && isBurst D (b :: rest)

/-- The last time of the nonempty list a :: ts. -/
def lastTime (a : Nat) : List Nat → Nat
  | [] => a
  | b :: rest => lastTime b rest

/-- The projection of a timer map onto one descriptor. -/
def entriesFor (d : ChangeType) : List (ChangeType × Nat) → List (ChangeType × Nat)
  | [] => []
  | (k, e) :: rest =>
      if k = d then (k, e) :: entriesFor d rest else entriesFor d rest

/-- The settled-change callbacks belonging to one descriptor. -/
def callbacksFor (d : ChangeType) : List (Nat × ChangeType) → List (Nat × ChangeType)
  | [] => []
  | (t, c) :: rest =>
      if c = d then (t, c) :: callbacksFor d rest else callbacksFor d rest

/-- The notifications of a trace belonging to one descriptor. -/
def traceFor (d : ChangeType) : List (Nat × ChangeType) → List (Nat × ChangeType)
  | [] => []
  | (t, c) :: rest =>
      if c = d then (t, c) :: traceFor d rest else traceFor d rest

/-- State of the interleaving model for one fixed change descriptor: is
the changeTimers entry for that key present, and how many live (scheduled
and never stopped) time.AfterFunc timers exist for that key.  src/main.go
takes no lock around the map operations: the only synchronization
primitive in the program is the WaitGroup of line 74, so statements of
two concurrent delayedUpdate calls (one per watch goroutine) can
interleave freely. -/
structure RaceState where
  hasEntry : Bool
  liveTimers : Nat
deriving DecidableEq, Repr

/-- One goroutine executing delayedUpdate for the fixed key, split at Go
statement granularity: phase 0 is about to execute the map read of
line 118 (timer, ok := changeTimers[change]), phase 1 holds the read
result and is about to execute the branch (Reset on line 120, or the
AfterFunc creation and map insert of line 123), phase 2 has returned. -/
structure TaskState where
  phase : Nat
  sawEntry : Bool
deriving DecidableEq, Repr

/-- One statement of delayedUpdate executed by one goroutine against the
shared state, with no mutual exclusion, exactly as in src/main.go
lines 117-128. -/
def raceMicroStep (s : RaceState) (t : TaskState) : RaceState × TaskState :=
  match t.phase with
  | 0 => (s, TaskState.mk 1 s.hasEntry)
  | 1 =>
      if t.sawEntry then
        (s, TaskState.mk 2 t.sawEntry)
      else
        (RaceState.mk true (s.liveTimers + 1), TaskState.mk 2 t.sawEntry)
  | _ => (s, t)

/-- Runs an interleaving of two goroutines both executing delayedUpdate
for the same key: false schedules a statement of the first goroutine,
true one of the second. -/
def runRace (sched : List Bool) (s : RaceState) (t1 t2 : TaskState) : RaceState :=
  match sched with
  | [] => s
  | b :: rest =>
      if b then
        let r := raceMicroStep s t2
        runRace rest r.1 t1 r.2
      else
        let r := raceMicroStep s t1
        runRace rest r.1 r.2 t2

/-- A whole-bundle import in a container's envFrom list: the Kubernetes
EnvFromSource, with its optional ConfigMapRef and SecretRef, each
carrying the referenced name. -/
structure EnvFromSource where
  configMapRef : Option String
  secretRef : Option String
deriving DecidableEq, Repr

/-- The valueFrom of a single env entry: the Kubernetes EnvVarSource,
with its optional ConfigMapKeyRef and SecretKeyRef, each carrying the
referenced name. -/
structure EnvVarSource where
  configMapKeyRef : Option String
  secretKeyRef : Option String
deriving DecidableEq, Repr

/-- A single-key environment entry (Kubernetes EnvVar): its ValueFrom
pointer may be absent. -/
structure EnvVar where
  valueFrom : Option EnvVarSource
deriving DecidableEq, Repr

/-- A container of the pod template, with its envFrom and env lists. -/
structure Container where
  envFrom : List EnvFromSource
  env : List EnvVar
deriving DecidableEq, Repr

/-- A Deployment as listed from the cluster: name, resource version, and
the pod template's container lists.  The Kubernetes PodSpec carries both
Containers and InitContainers; src/main.go line 138 ranges only over
Spec.Template.Spec.Containers. -/
structure DeploymentObj where
  name : String
  resourceVersion : String
  containers : List Container
  initContainers : List Container
deriving DecidableEq, Repr

/-- The envFrom loop of src/main.go lines 139-149 for one container:
true when some whole-bundle import matches the change's kind and name
exactly (ConfigMapRef non-nil with equal name for a ConfigMap change,
SecretRef non-nil with equal name for a Secret change). -/
def scanEnvFrom (change : ChangeType) : List EnvFromSource → Bool
  | [] => false
  | e :: rest =>
      if change.type = "ConfigMap" ∧ e.configMapRef = some change.name then true
      else if change.type = "Secret" ∧ e.secretRef = some change.name then true
      else scanEnvFrom change rest

/-- The env loop of src/main.go lines 151-161 for one container: true
when some single-key reference (ValueFrom non-nil, the matching key ref
non-nil, equal name) matches the change's kind and name exactly. -/
def scanEnv (change : ChangeType) : List EnvVar → Bool
  | [] => false
  | e :: rest =>
      if change.type = "ConfigMap" ∧
          (e.valueFrom.bind (fun v => v.configMapKeyRef)) = some change.name then true
      else if change.type = "Secret" ∧
          (e.valueFrom.bind (fun v => v.secretKeyRef)) = some change.name then true
      else scanEnv change rest

/-- The container loop of src/main.go lines 138-162: for each container
the envFrom list is scanned first, then the env list; the first match
ends the scan of this deployment (continue deploymentLoop). -/
def scanContainers (change : ChangeType) : List Container → Bool
  | [] => false
  | c :: rest =>
      if scanEnvFrom change c.envFrom then true
      else if scanEnv change c.env then true
      else scanContainers change rest

/-- Whether the dependency scan queues this deployment. -/
def deploymentMatches (change : ChangeType) (d : DeploymentObj) : Bool :=
  scanContainers change d.containers

/-- The deployment loop of src/main.go lines 136-163: the sequence of
queueDeployment invocations it performs, in order; each deployment is
queued at most once because the first matching reference jumps to the
next deployment. -/
def queuedDeployments (change : ChangeType) : List DeploymentObj → List DeploymentObj
  | [] => []
  | d :: rest =>
      if deploymentMatches change d then d :: queuedDeployments change rest
      else queuedDeployments change rest

/-- Result of the Deployments List call of src/main.go line 131. -/
inductive ListResult where
  | ok (items : List DeploymentObj)
  | err
deriving DecidableEq

/-- Outcome of one findAndQueueDeployments occurrence.  panicked models
panic(err) of line 133, which unwinds the timer goroutine and terminates
the whole process. -/
inductive ScanOutcome where
  | panicked
  | completed (queued : List DeploymentObj)
deriving DecidableEq

/-- Embeds findAndQueueDeployments (src/main.go lines 130-164) with the
result of the List call made explicit: a listing error panics (line 133);
otherwise every deployment whose pod template's main containers reference
the changed resource is queued. -/
def findAndQueueDeployments (change : ChangeType) (r : ListResult) : ScanOutcome :=
  match r with
  | ListResult.err => ScanOutcome.panicked
  | ListResult.ok items => ScanOutcome.completed (queuedDeployments change items)

/-- A container holds a reference to the changed resource: a
whole-bundle import or a single-key reference whose kind and referenced
name equal the descriptor's exactly. -/
def containerRefs (change : ChangeType) (c : Container) : Prop :=
  (∃ e ∈ c.envFrom,
      (change.type = "ConfigMap" ∧ e.configMapRef = some change.name) ∨
      (change.type = "Secret" ∧ e.secretRef = some change.name)) ∨
  (∃ e ∈ c.env,
      (change.type = "ConfigMap" ∧
        (e.valueFrom.bind (fun v => v.configMapKeyRef)) = some change.name) ∨
      (change.type = "Secret" ∧
        (e.valueFrom.bind (fun v => v.secretKeyRef)) = some change.name))

/-- A deployment declares a dependency on the changed resource through
some main container. -/
def hasExactRef (change : ChangeType) (d : DeploymentObj) : Prop :=
  ∃ c ∈ d.containers, containerRefs change c

instance decContainerRefs (change : ChangeType) (c : Container) :
    Decidable (containerRefs change c) := by
  unfold containerRefs
  infer_instance

instance decHasExactRef (change : ChangeType) (d : DeploymentObj) :
    Decidable (hasExactRef change d) := by
  unfold hasExactRef
  infer_instance

/-- The Deployment struct of src/main.go (lines 27-30) used as the
updateTimers key: the deployment's name together with the GetOptions
whose only set field is the observed ResourceVersion (lines 167-172), so
the debounce identity is the pair (name, observedVersion). -/
structure DeploymentKey where
  name : String
  resourceVersion : String
deriving DecidableEq, Repr

/-- The key built at the top of queueDeployment (src/main.go
lines 167-172). -/
def mkDeploymentKey (d : DeploymentObj) : DeploymentKey :=
  DeploymentKey.mk d.name d.resourceVersion

/-- Embeds queueDeployment (src/main.go lines 166-184), run sequentially
at absolute time t with configured delay D: if the key already has a live
timer in updateTimers it is reset to expire at t + D (timer.Reset(delay)
on line 176); otherwise a fresh timer expiring at t + D is stored
(updateTimers[dep] = time.AfterFunc(delay, ...) on line 179). -/
def queueDeployment (D t : Nat) (dep : DeploymentObj)
    (m : List (DeploymentKey × Nat)) : List (DeploymentKey × Nat) :=
  match lookupA m (mkDeploymentKey dep) with
  | some _ => setA m (mkDeploymentKey dep) (t + D)
  | none => setA m (mkDeploymentKey dep) (t + D)

/-- Embeds the expiry callback installed by queueDeployment (src/main.go
lines 179-182): delete(updateTimers, dep) followed by
patchDeployment(dep).  Returns the new map and the list of applyPatch
invocations the callback performs. -/
def updateTimerFire (key : DeploymentKey) (m : List (DeploymentKey × Nat)) :
    List (DeploymentKey × Nat) × List DeploymentKey :=
  (removeA m key, [key])

/-- The annotation key written by patchDeployment (src/main.go
lines 209-210). -/
def annKey : String := "configmaster/last.update"

/-- A Deployment as fetched by the Get call of patchDeployment
(src/main.go line 187): the two annotation maps the function writes
(each may be nil, modelled as Option) and representative fields the
function never touches. -/
structure FetchedDeployment where
  name : String
  resourceVersion : String
  annotations : Option (List (String × String))
  templateAnnotations : Option (List (String × String))
  containers : List Container
  replicas : Option Nat
deriving DecidableEq, Repr

/-- Embeds src/main.go lines 199-210: create each annotation map when it
is nil, then assign the timestamp annotation m[annKey] = now at both the
top-level metadata and the pod-template metadata, with the same now. -/
def touchDeployment (now : String) (d : FetchedDeployment) : FetchedDeployment :=
  FetchedDeployment.mk d.name d.resourceVersion
    (some (setA (d.annotations.getD []) annKey now))
    (some (setA (d.templateAnnotations.getD []) annKey now))
    d.containers d.replicas

/-- Annotation lookup through a possibly-nil map. -/
def lookupAnn (m : Option (List (String × String))) (k : String) : Option String :=
  match m with
  | none => none
  | some l => lookupA l k

/-- Result of a fallible step of patchDeployment. -/
inductive StepResult (α : Type) where
  | ok (a : α)
  | fail
deriving DecidableEq

/-- The environment of one patchDeployment occurrence: the outcome of the
Get call of line 187, the two json.Marshal calls (lines 193, 212), the
CreateTwoWayMergePatch call (line 218) and the Patch submission
(line 224) of src/main.go. -/
structure PatchEnv where
  getResult : StepResult FetchedDeployment
  marshalBaselineOk : Bool
  marshalTargetOk : Bool
  createPatchOk : Bool
  submitOk : Bool
deriving DecidableEq

/-- The externally observable actions of one patchDeployment occurrence,
in order. -/
inductive PatchAction where
  | fetch
  | marshalBaseline
  | annotate
  | marshalTarget
  | createPatch
  | submit
  | logError (name : String)
  | logSuccess (name : String)
deriving DecidableEq, Repr

/-- Embeds patchDeployment (src/main.go lines 186-231) as the sequence of
actions one occurrence performs.  Every error path logs the deployment's
name and returns from the function (lines 188-191, 194-197, 213-216,
219-222, 225-228): there is no retry and no panic in this function, so
every environment yields a finite action list ending in a log line. -/
def patchDeployment (key : DeploymentKey) (env : PatchEnv) : List PatchAction :=
  match env.getResult with
  | StepResult.fail => [PatchAction.fetch, PatchAction.logError key.name]
  | StepResult.ok dep =>
      if env.marshalBaselineOk = false then
        [PatchAction.fetch, PatchAction.marshalBaseline, PatchAction.logError dep.name]
      else if env.marshalTargetOk = false then
        [PatchAction.fetch, PatchAction.marshalBaseline, PatchAction.annotate,
          PatchAction.marshalTarget, PatchAction.logError dep.name]
      else if env.createPatchOk = false then
        [PatchAction.fetch, PatchAction.marshalBaseline, PatchAction.annotate,
          PatchAction.marshalTarget, PatchAction.createPatch,
          PatchAction.logError dep.name]
      else if env.submitOk = false then
        [PatchAction.fetch, PatchAction.marshalBaseline, PatchAction.annotate,
          PatchAction.marshalTarget, PatchAction.createPatch, PatchAction.submit,
          PatchAction.logError dep.name]
      else
        [PatchAction.fetch, PatchAction.marshalBaseline, PatchAction.annotate,
          PatchAction.marshalTarget, PatchAction.createPatch, PatchAction.submit,
          PatchAction.logSuccess dep.name]

/-- Whether an action is a log line. -/
def isLog : PatchAction → Bool
  | PatchAction.logError _ => true
  | PatchAction.logSuccess _ => true
  | _ => false

/-- The last action of a trace. -/
def lastA : List PatchAction → Option PatchAction
  | [] => none
  | [a] => some a
  | _ :: rest => lastA rest

/-- The metadata of a watched object: its name. -/
structure ObjectMeta where
  name : String
deriving DecidableEq, Repr

/-- The dynamic type of the object carried by a watch event: a ConfigMap,
a Secret, or any other runtime type. -/
inductive WatchObject where
  | configMapObj (meta : ObjectMeta)
  | secretObj (meta : ObjectMeta)
  | otherObj
deriving DecidableEq, Repr

/-- The type assertion of src/main.go line 91,
configmap, _ := event.Object.(*core.ConfigMap), with the ok result
discarded: a failed assertion yields the nil pointer, modelled none. -/
def assertConfigMap : WatchObject → Option ObjectMeta
  | WatchObject.configMapObj m => some m
  | _ => none

/-- The type assertion of src/main.go line 106,
secret, _ := event.Object.(*core.Secret), with the ok result
discarded. -/
def assertSecret : WatchObject → Option ObjectMeta
  | WatchObject.secretObj m => some m
  | _ => none

/-- What one event handler iteration does: it either emits a change
descriptor to delayedUpdate, or dereferences a nil pointer (reading
configmap.ObjectMeta.Name through the nil result of a failed assertion),
which panics and crashes the process. -/
inductive HandlerOutcome where
  | emitted (c : ChangeType)
  | nilDereference
deriving DecidableEq, Repr

/-- Embeds the loop body of the ConfigMap watch goroutine (src/main.go
lines 90-96) for one filtered event carrying the given object. -/
def handleConfigMapEvent (obj : WatchObject) : HandlerOutcome :=
  match assertConfigMap obj with
  | some m => HandlerOutcome.emitted (ChangeType.mk "ConfigMap" m.name)
  | none => HandlerOutcome.nilDereference

/-- Embeds the loop body of the Secret watch goroutine (src/main.go
lines 105-111) for one filtered event carrying the given object. -/
def handleSecretEvent (obj : WatchObject) : HandlerOutcome :=
  match assertSecret obj with
  | some m => HandlerOutcome.emitted (ChangeType.mk "Secret" m.name)
  | none => HandlerOutcome.nilDereference

/-- Concrete example: a settled change for the ConfigMap app-config. -/
def chgA : ChangeType := ChangeType.mk "ConfigMap" "app-config"

/-- Concrete example: a deployment importing the bundle app-config
wholesale in a main container. -/
def depMatching : DeploymentObj :=
  DeploymentObj.mk "web" "101"
    [Container.mk [EnvFromSource.mk (some "app-config") none] []] []

/-- Concrete example: a deployment referencing the distinct bundle name
app-config-2. -/
def depNearName : DeploymentObj :=
  DeploymentObj.mk "web2" "102"
    [Container.mk [EnvFromSource.mk (some "app-config-2") none] []] []

/-- Concrete example: a deployment referencing a Secret named app-config
(the same name under the other kind). -/
def depOtherKind : DeploymentObj :=
  DeploymentObj.mk "web3" "103"
    [Container.mk [EnvFromSource.mk none (some "app-config")] []] []

/-- Concrete example: a deployment whose only reference to app-config
sits in an init container. -/
def depInitOnly : DeploymentObj :=
  DeploymentObj.mk "web4" "104"
    [Container.mk [] []]
    [Container.mk [EnvFromSource.mk (some "app-config") none] []]

/-- Concrete example: a fetched deployment with no top-level annotations
and one unrelated pod-template annotation. -/
def depFetched : FetchedDeployment :=
  FetchedDeployment.mk "web" "101" none (some [("team", "payments")])
    [Container.mk [EnvFromSource.mk (some "app-config") none] []] (some 3)

theorem lookupA_setA_self {κ α : Type} [DecidableEq κ]
    (m : List (κ × α)) (k : κ) (a : α) : lookupA (setA m k a) k = some a := by
  induction m with
  | nil => simp [setA, lookupA]
  | cons hd tl ih =>
      obtain ⟨k', a'⟩ := hd
      by_cases h : k' = k
      · simp [setA, h, lookupA]
      · simp [setA, h, lookupA, ih]

theorem lookupA_setA_other {κ α : Type} [DecidableEq κ]
    (m : List (κ × α)) (k j : κ) (a : α) (hj : j ≠ k) :
    lookupA (setA m k a) j = lookupA m j := by
  have hkj : ¬ k = j := fun h => hj h.symm
  induction m with
  | nil => simp [setA, lookupA, hkj]
  | cons hd tl ih =>
      obtain ⟨k', a'⟩ := hd
      by_cases h : k' = k
      · subst h
        simp [setA, lookupA, hkj]
      · simp [setA, h, lookupA, ih]

theorem lookupA_removeA_self {κ α : Type} [DecidableEq κ]
    (m : List (κ × α)) (k : κ) : lookupA (removeA m k) k = none := by
  induction m with
  | nil => simp [removeA, lookupA]
  | cons hd tl ih =>
      obtain ⟨k', a'⟩ := hd
      by_cases h : k' = k <;> simp [removeA, h, lookupA, ih]

theorem lookupA_removeA_other {κ α : Type} [DecidableEq κ]
    (m : List (κ × α)) (k j : κ) (hj : j ≠ k) :
    lookupA (removeA m k) j = lookupA m j := by
  have hkj : ¬ k = j := fun h => hj h.symm
  induction m with
  | nil => simp [removeA]
  | cons hd tl ih =>
      obtain ⟨k', a'⟩ := hd
      by_cases h : k' = k
      · subst h
        simp [removeA, lookupA, hkj, ih]
      · simp [removeA, h, lookupA, ih]

theorem delayedUpdate_lookup_self (D t : Nat) (change : ChangeType)
    (m : List (ChangeType × Nat)) :
    lookupA (delayedUpdate D t change m) change = some (t + D) := by
  unfold delayedUpdate
  cases lookupA m change <;> simp [lookupA_setA_self]

theorem delayedUpdate_lookup_other (D t : Nat) (change k : ChangeType)
    (m : List (ChangeType × Nat)) (hk : k ≠ change) :
    lookupA (delayedUpdate D t change m) k = lookupA m k := by
  unfold delayedUpdate
  cases lookupA m change <;> simp [lookupA_setA_other _ _ _ _ hk]

theorem delayedUpdate_eq_setA (D t : Nat) (change : ChangeType)
    (m : List (ChangeType × Nat)) :
    delayedUpdate D t change m = setA m change (t + D) := by
  unfold delayedUpdate
  cases lookupA m change <;> rfl

theorem runTrace_cons (D t : Nat) (c : ChangeType) (rest : List (Nat × ChangeType))
    (m : List (ChangeType × Nat)) :
    runTrace D ((t, c) :: rest) m =
      ((runTrace D rest (stepNotify D t c m).1).1,
        (stepNotify D t c m).2 ++ (runTrace D rest (stepNotify D t c m).1).2) := rfl

theorem runTrace_cons_fst (D t : Nat) (c : ChangeType) (rest : List (Nat × ChangeType))
    (m : List (ChangeType × Nat)) :
    (runTrace D ((t, c) :: rest) m).1 =
      (runTrace D rest (stepNotify D t c m).1).1 := rfl

theorem runTrace_cons_snd (D t : Nat) (c : ChangeType) (rest : List (Nat × ChangeType))
    (m : List (ChangeType × Nat)) :
    (runTrace D ((t, c) :: rest) m).2 =
      (stepNotify D t c m).2 ++ (runTrace D rest (stepNotify D t c m).1).2 := rfl

theorem runTrace_burst (D : Nat) (d : ChangeType) :
    ∀ (ts : List Nat) (a e : Nat), isBurst D (a :: ts) = true → a < e →
      runTrace D ((a :: ts).map (fun t => (t, d))) [(d, e)] =
        ([(d, lastTime a ts + D)], []) := by
  intro ts
  induction ts with
  | nil =>
      intro a e _ hae
      have hne : ¬ e ≤ a := Nat.not_le.mpr hae
      simp [runTrace, stepNotify, lookupA, hne, delayedUpdate_eq_setA, setA, lastTime]
  | cons b rest ih =>
      intro a e hburst hae
      have hne : ¬ e ≤ a := Nat.not_le.mpr hae
      simp only [isBurst, Bool.and_eq_true, decide_eq_true_eq] at hburst
      obtain ⟨⟨hab, hgap⟩, hrest⟩ := hburst
      have hb : b < a + D := by omega
      have hstep : stepNotify D a d [(d, e)] = ([(d, a + D)], []) := by
        simp [stepNotify, lookupA, hne, delayedUpdate_eq_setA, setA]
      have hrec := ih b (a + D) hrest hb
      simp only [List.map_cons] at hrec ⊢
      have h1 : runTrace D ((a, d) :: (b, d) :: List.map (fun t => (t, d)) rest) [(d, e)] =
          ((runTrace D ((b, d) :: List.map (fun t => (t, d)) rest) [(d, a + D)]).1,
            [] ++ (runTrace D ((b, d) :: List.map (fun t => (t, d)) rest) [(d, a + D)]).2) := by
        rw [runTrace_cons, hstep]
      rw [h1, hrec]
      simp [lastTime]

theorem lookupA_entriesFor (d : ChangeType) (m : List (ChangeType × Nat)) :
    lookupA (entriesFor d m) d = lookupA m d := by
  induction m with
  | nil => rfl
  | cons hd tl ih =>
      obtain ⟨k, e⟩ := hd
      by_cases h : k = d
      · subst h
        simp [entriesFor, lookupA]
      · simp [entriesFor, h, lookupA, ih]

theorem entriesFor_setA_self (d : ChangeType) (m : List (ChangeType × Nat)) (e : Nat) :
    entriesFor d (setA m d e) = setA (entriesFor d m) d e := by
  induction m with
  | nil => simp [setA, entriesFor]
  | cons hd tl ih =>
      obtain ⟨k, a⟩ := hd
      by_cases h : k = d
      · subst h
        simp [setA, entriesFor]
      · simp [setA, h, entriesFor, ih]

theorem entriesFor_setA_other (d c : ChangeType) (m : List (ChangeType × Nat))
    (e : Nat) (hc : c ≠ d) :
    entriesFor d (setA m c e) = entriesFor d m := by
  induction m with
  | nil => simp [setA, entriesFor, hc]
  | cons hd tl ih =>
      obtain ⟨k, a⟩ := hd
      by_cases h : k = c
      · subst h
        simp [setA, entriesFor, hc]
      · simp [setA, h, entriesFor, ih]

theorem entriesFor_removeA_self (d : ChangeType) (m : List (ChangeType × Nat)) :
    entriesFor d (removeA m d) = [] := by
  induction m with
  | nil => rfl
  | cons hd tl ih =>
      obtain ⟨k, a⟩ := hd
      by_cases h : k = d
      · subst h
        simp [removeA, entriesFor, ih]
      · simp [removeA, h, entriesFor, ih]

theorem entriesFor_removeA_other (d c : ChangeType) (m : List (ChangeType × Nat))
    (hc : c ≠ d) :
    entriesFor d (removeA m c) = entriesFor d m := by
  induction m with
  | nil => rfl
  | cons hd tl ih =>
      obtain ⟨k, a⟩ := hd
      by_cases h : k = c
      · subst h
        simp [removeA, entriesFor, hc, ih]
      · simp [removeA, h, entriesFor, ih]

theorem removeA_entriesFor_self (d : ChangeType) (m : List (ChangeType × Nat)) :
    removeA (entriesFor d m) d = [] := by
  induction m with
  | nil => rfl
  | cons hd tl ih =>
      obtain ⟨k, a⟩ := hd
      by_cases h : k = d
      · subst h
        simp [entriesFor, removeA, ih]
      · simp [entriesFor, h, removeA, ih]

theorem stepNotify_project_self (D t : Nat) (d : ChangeType)
    (m : List (ChangeType × Nat)) :
    entriesFor d (stepNotify D t d m).1 = (stepNotify D t d (entriesFor d m)).1 ∧
    (stepNotify D t d m).2 = (stepNotify D t d (entriesFor d m)).2 := by
  unfold stepNotify changeTimerFire
  rw [lookupA_entriesFor]
  cases h : lookupA m d with
  | none =>
      simp [delayedUpdate_eq_setA, entriesFor_setA_self]
  | some e =>
      by_cases ht : e ≤ t
      · simp [ht, delayedUpdate_eq_setA, entriesFor_setA_self,
          entriesFor_removeA_self, removeA_entriesFor_self]
      · simp [ht, delayedUpdate_eq_setA, entriesFor_setA_self]

theorem stepNotify_project_other (D t : Nat) (d c : ChangeType)
    (m : List (ChangeType × Nat)) (hc : c ≠ d) :
    entriesFor d (stepNotify D t c m).1 = entriesFor d m ∧
    callbacksFor d (stepNotify D t c m).2 = [] := by
  unfold stepNotify changeTimerFire
  cases h : lookupA m c with
  | none =>
      simp [delayedUpdate_eq_setA, entriesFor_setA_other _ _ _ _ hc, callbacksFor]
  | some e =>
      by_cases ht : e ≤ t
      · simp [ht, delayedUpdate_eq_setA, entriesFor_setA_other _ _ _ _ hc,
          entriesFor_removeA_other _ _ _ hc, callbacksFor, hc]
      · simp [ht, delayedUpdate_eq_setA, entriesFor_setA_other _ _ _ _ hc, callbacksFor]

theorem callbacksFor_append (d : ChangeType) (l1 l2 : List (Nat × ChangeType)) :
    callbacksFor d (l1 ++ l2) = callbacksFor d l1 ++ callbacksFor d l2 := by
  induction l1 with
  | nil => rfl
  | cons hd tl ih =>
      obtain ⟨t, c⟩ := hd
      by_cases h : c = d <;> simp [callbacksFor, h, ih]

theorem callbacksFor_stepNotify_self (D t : Nat) (d : ChangeType)
    (m : List (ChangeType × Nat)) :
    callbacksFor d (stepNotify D t d m).2 = (stepNotify D t d m).2 := by
  unfold stepNotify changeTimerFire
  cases h : lookupA m d with
  | none => simp [callbacksFor]
  | some e =>
      by_cases ht : e ≤ t <;> simp [ht, callbacksFor]

theorem runTrace_project (D : Nat) (d : ChangeType) :
    ∀ (tr : List (Nat × ChangeType)) (m : List (ChangeType × Nat)),
      entriesFor d (runTrace D tr m).1 =
        (runTrace D (traceFor d tr) (entriesFor d m)).1 ∧
      callbacksFor d (runTrace D tr m).2 =
        (runTrace D (traceFor d tr) (entriesFor d m)).2 := by
  intro tr
  induction tr with
  | nil =>
      intro m
      exact ⟨rfl, rfl⟩
  | cons ev rest ih =>
      intro m
      obtain ⟨t, c⟩ := ev
      by_cases hc : c = d
      · subst hc
        have hproj := stepNotify_project_self D t c m
        have hcb := callbacksFor_stepNotify_self D t c m
        have hrec := ih (stepNotify D t c m).1
        have htf : traceFor c ((t, c) :: rest) = (t, c) :: traceFor c rest := by
          simp [traceFor]
        constructor
        · rw [runTrace_cons_fst, htf, runTrace_cons_fst, ← hproj.1]
          exact hrec.1
        · rw [runTrace_cons_snd, htf, runTrace_cons_snd, callbacksFor_append,
            hcb, hproj.2, ← hproj.1, hrec.2]
      · have hproj := stepNotify_project_other D t d c m hc
        have hrec := ih (stepNotify D t c m).1
        have htf : traceFor d ((t, c) :: rest) = traceFor d rest := by
          simp [traceFor, hc]
        constructor
        · rw [runTrace_cons_fst, htf, ← hproj.1]
          exact hrec.1
        · rw [runTrace_cons_snd, htf, callbacksFor_append, hproj.2,
            List.nil_append, ← hproj.1]
          exact hrec.2

theorem callbacksFor_flushTimers (d : ChangeType) (m : List (ChangeType × Nat)) :
    callbacksFor d (flushTimers m) = flushTimers (entriesFor d m) := by
  induction m with
  | nil => rfl
  | cons hd tl ih =>
      obtain ⟨k, e⟩ := hd
      by_cases h : k = d
      · subst h
        simp [flushTimers, entriesFor, callbacksFor, ih]
      · simp [flushTimers, entriesFor, callbacksFor, h, ih]

theorem callbacks_project (D : Nat) (d : ChangeType) (tr : List (Nat × ChangeType)) :
    callbacksFor d (callbacksOf D tr) = callbacksOf D (traceFor d tr) := by
  unfold callbacksOf
  have h := runTrace_project D d tr []
  rw [callbacksFor_append, callbacksFor_flushTimers, h.2, h.1]
  rfl

/-- Claim C1: a burst of notifications of descriptor d at strictly
increasing times with every gap below the delay D, started from an empty
timer map, produces exactly one settled-change callback, at the last
notification time plus D; and for every descriptor d, the callbacks of d
in an arbitrary mixed trace are exactly those of the trace restricted to
d, so notifications and resets of other descriptors never fire, reset or
cancel d's countdown. -/
theorem c1_burst_and_isolation (D : Nat) (d : ChangeType) (a : Nat) (ts : List Nat)
    (hburst : isBurst D (a :: ts) = true) (tr : List (Nat × ChangeType)) :
    callbacksOf D ((a :: ts).map (fun t => (t, d))) = [(lastTime a ts + D, d)] ∧
    callbacksFor d (callbacksOf D tr) = callbacksOf D (traceFor d tr) := by
  refine ⟨?_, callbacks_project D d tr⟩
  have hstep0 : stepNotify D a d [] = ([(d, a + D)], []) := rfl
  cases ts with
  | nil =>
      simp [callbacksOf, runTrace, hstep0, flushTimers, lastTime]
  | cons b rest =>
      simp only [isBurst, Bool.and_eq_true, decide_eq_true_eq] at hburst
      obtain ⟨⟨hab, hgap⟩, hrest⟩ := hburst
      have hb : b < a + D := by omega
      have hrec := runTrace_burst D d rest b (a + D) hrest hb
      simp only [List.map_cons] at hrec ⊢
      have h1 : runTrace D ((a, d) :: (b, d) :: List.map (fun t => (t, d)) rest) [] =
          ((runTrace D ((b, d) :: List.map (fun t => (t, d)) rest) [(d, a + D)]).1,
            [] ++ (runTrace D ((b, d) :: List.map (fun t => (t, d)) rest) [(d, a + D)]).2) := by
        rw [runTrace_cons, hstep0]
      unfold callbacksOf
      rw [h1, hrec]
      simp [flushTimers, lastTime]

/-- Witness for C1: D = 5, with notifications of the ConfigMap descriptor
cfg-a at times 0 and 2 (a burst), exactly one callback fires, at time 7;
and on the mixed trace with a Secret notification interleaved, the
cfg-a callbacks equal those of the cfg-a-only trace. -/
theorem c1_burst_and_isolation_witness :
    isBurst 5 [0, 2] = true ∧
    (callbacksOf 5 ([0, 2].map (fun t => (t, ChangeType.mk "ConfigMap" "cfg-a"))) =
        [(lastTime 0 [2] + 5, ChangeType.mk "ConfigMap" "cfg-a")] ∧
      callbacksFor (ChangeType.mk "ConfigMap" "cfg-a")
          (callbacksOf 5 [(0, ChangeType.mk "ConfigMap" "cfg-a"),
            (1, ChangeType.mk "Secret" "sec-b"),
            (2, ChangeType.mk "ConfigMap" "cfg-a")]) =
        callbacksOf 5 (traceFor (ChangeType.mk "ConfigMap" "cfg-a")
          [(0, ChangeType.mk "ConfigMap" "cfg-a"),
            (1, ChangeType.mk "Secret" "sec-b"),
            (2, ChangeType.mk "ConfigMap" "cfg-a")])) :=
  ⟨by decide,
    c1_burst_and_isolation 5 (ChangeType.mk "ConfigMap" "cfg-a") 0 [2] (by decide)
      [(0, ChangeType.mk "ConfigMap" "cfg-a"), (1, ChangeType.mk "Secret" "sec-b"),
        (2, ChangeType.mk "ConfigMap" "cfg-a")]⟩

/-- Claim C2: a call of delayedUpdate for descriptor desc resets (when a
live timer exists) or creates (when none exists) a countdown expiring at
t + D under key desc, leaves every other key's entry untouched, and the
expiry callback removes the entry for desc and invokes the settled-change
handler findAndQueueDeployments exactly once, for desc itself. -/
theorem c2_delayedUpdate_spec (D t : Nat) (desc k : ChangeType)
    (m : List (ChangeType × Nat)) (hk : k ≠ desc) :
    lookupA (delayedUpdate D t desc m) desc = some (t + D) ∧
    lookupA (delayedUpdate D t desc m) k = lookupA m k ∧
    lookupA (changeTimerFire desc m).1 desc = none ∧
    lookupA (changeTimerFire desc m).1 k = lookupA m k ∧
    (changeTimerFire desc m).2 = [desc] := by
  refine ⟨delayedUpdate_lookup_self D t desc m,
    delayedUpdate_lookup_other D t desc k m hk, ?_, ?_, rfl⟩
  · exact lookupA_removeA_self m desc
  · exact lookupA_removeA_other m desc k hk

/-- Witness for C2 at a concrete state: the map holds a live timer for a
ConfigMap descriptor and an unrelated Secret descriptor; the call resets
the former and leaves the latter alone. -/
theorem c2_delayedUpdate_spec_witness :
    lookupA (delayedUpdate 5 7 (ChangeType.mk "ConfigMap" "cfg-a")
        [(ChangeType.mk "ConfigMap" "cfg-a", 9), (ChangeType.mk "Secret" "sec-b", 11)])
      (ChangeType.mk "ConfigMap" "cfg-a") = some 12 ∧
    lookupA (delayedUpdate 5 7 (ChangeType.mk "ConfigMap" "cfg-a")
        [(ChangeType.mk "ConfigMap" "cfg-a", 9), (ChangeType.mk "Secret" "sec-b", 11)])
      (ChangeType.mk "Secret" "sec-b") =
      lookupA [(ChangeType.mk "ConfigMap" "cfg-a", 9), (ChangeType.mk "Secret" "sec-b", 11)]
        (ChangeType.mk "Secret" "sec-b") ∧
    lookupA (changeTimerFire (ChangeType.mk "ConfigMap" "cfg-a")
        [(ChangeType.mk "ConfigMap" "cfg-a", 9), (ChangeType.mk "Secret" "sec-b", 11)]).1
      (ChangeType.mk "ConfigMap" "cfg-a") = none ∧
    lookupA (changeTimerFire (ChangeType.mk "ConfigMap" "cfg-a")
        [(ChangeType.mk "ConfigMap" "cfg-a", 9), (ChangeType.mk "Secret" "sec-b", 11)]).1
      (ChangeType.mk "Secret" "sec-b") =
      lookupA [(ChangeType.mk "ConfigMap" "cfg-a", 9), (ChangeType.mk "Secret" "sec-b", 11)]
        (ChangeType.mk "Secret" "sec-b") ∧
    (changeTimerFire (ChangeType.mk "ConfigMap" "cfg-a")
        [(ChangeType.mk "ConfigMap" "cfg-a", 9), (ChangeType.mk "Secret" "sec-b", 11)]).2 =
      [ChangeType.mk "ConfigMap" "cfg-a"] :=
  c2_delayedUpdate_spec 5 7 (ChangeType.mk "ConfigMap" "cfg-a")
    (ChangeType.mk "Secret" "sec-b")
    [(ChangeType.mk "ConfigMap" "cfg-a", 9), (ChangeType.mk "Secret" "sec-b", 11)]
    (by decide)

/-- Claim C3, refuted on the code: delayedUpdate performs its
check-then-insert on changeTimers with no lock (src/main.go has no mutex;
its only sync primitive is the WaitGroup of line 74).  Under the
interleaving read-read-insert-insert of two concurrent notifications for
the same absent key, two live timers are created for that key, violating
the at-most-one-live-timer-per-key invariant; the serialized schedule
creates exactly one. -/
theorem c3_unsynchronized_check_then_insert :
    (runRace [false, true, false, true] (RaceState.mk false 0)
        (TaskState.mk 0 false) (TaskState.mk 0 false)).liveTimers = 2 ∧
    (runRace [false, false, true, true] (RaceState.mk false 0)
        (TaskState.mk 0 false) (TaskState.mk 0 false)).liveTimers = 1 := by
  exact ⟨rfl, rfl⟩

theorem scanEnvFrom_iff (change : ChangeType) (l : List EnvFromSource) :
    scanEnvFrom change l = true ↔
      ∃ e ∈ l, (change.type = "ConfigMap" ∧ e.configMapRef = some change.name) ∨
        (change.type = "Secret" ∧ e.secretRef = some change.name) := by
  induction l with
  | nil => simp [scanEnvFrom]
  | cons e rest ih =>
      by_cases h1 : change.type = "ConfigMap" ∧ e.configMapRef = some change.name
      · have hl : scanEnvFrom change (e :: rest) = true := by
          simp [scanEnvFrom, h1]
        exact iff_of_true hl ⟨e, List.mem_cons_self e rest, Or.inl h1⟩
      · by_cases h2 : change.type = "Secret" ∧ e.secretRef = some change.name
        · have hl : scanEnvFrom change (e :: rest) = true := by
            simp [scanEnvFrom, h1, h2]
          exact iff_of_true hl ⟨e, List.mem_cons_self e rest, Or.inr h2⟩
        · have hl : scanEnvFrom change (e :: rest) = scanEnvFrom change rest := by
            simp [scanEnvFrom, h1, h2]
          rw [hl, ih]
          constructor
          · rintro ⟨e', hm, hr⟩
            exact ⟨e', List.mem_cons_of_mem e hm, hr⟩
          · rintro ⟨e', hm, hr⟩
            rcases List.mem_cons.mp hm with rfl | hm'
            · rcases hr with h | h
              · exact absurd h h1
              · exact absurd h h2
            · exact ⟨e', hm', hr⟩

theorem scanEnv_iff (change : ChangeType) (l : List EnvVar) :
    scanEnv change l = true ↔
      ∃ e ∈ l, (change.type = "ConfigMap" ∧
          (e.valueFrom.bind (fun v => v.configMapKeyRef)) = some change.name) ∨
        (change.type = "Secret" ∧
          (e.valueFrom.bind (fun v => v.secretKeyRef)) = some change.name) := by
  induction l with
  | nil => simp [scanEnv]
  | cons e rest ih =>
      by_cases h1 : change.type = "ConfigMap" ∧
          (e.valueFrom.bind (fun v => v.configMapKeyRef)) = some change.name
      · have hl : scanEnv change (e :: rest) = true := by
          simp [scanEnv, h1]
        exact iff_of_true hl ⟨e, List.mem_cons_self e rest, Or.inl h1⟩
      · by_cases h2 : change.type = "Secret" ∧
            (e.valueFrom.bind (fun v => v.secretKeyRef)) = some change.name
        · have hl : scanEnv change (e :: rest) = true := by
            simp [scanEnv, h1, h2]
          exact iff_of_true hl ⟨e, List.mem_cons_self e rest, Or.inr h2⟩
        · have hl : scanEnv change (e :: rest) = scanEnv change rest := by
            simp [scanEnv, h1, h2]
          rw [hl, ih]
          constructor
          · rintro ⟨e', hm, hr⟩
            exact ⟨e', List.mem_cons_of_mem e hm, hr⟩
          · rintro ⟨e', hm, hr⟩
            rcases List.mem_cons.mp hm with rfl | hm'
            · rcases hr with h | h
              · exact absurd h h1
              · exact absurd h h2
            · exact ⟨e', hm', hr⟩

theorem scanContainers_iff (change : ChangeType) (l : List Container) :
    scanContainers change l = true ↔ ∃ c ∈ l, containerRefs change c := by
  induction l with
  | nil => simp [scanContainers]
  | cons c rest ih =>
      by_cases h1 : scanEnvFrom change c.envFrom = true
      · have hl : scanContainers change (c :: rest) = true := by
          simp [scanContainers, h1]
        exact iff_of_true hl ⟨c, List.mem_cons_self c rest,
          Or.inl ((scanEnvFrom_iff change c.envFrom).mp h1)⟩
      · by_cases h2 : scanEnv change c.env = true
        · have hl : scanContainers change (c :: rest) = true := by
            simp [scanContainers, h1, h2]
          exact iff_of_true hl ⟨c, List.mem_cons_self c rest,
            Or.inr ((scanEnv_iff change c.env).mp h2)⟩
        · have hl : scanContainers change (c :: rest) = scanContainers change rest := by
            simp [scanContainers, h1, h2]
          rw [hl, ih]
          constructor
          · rintro ⟨c', hm, hr⟩
            exact ⟨c', List.mem_cons_of_mem c hm, hr⟩
          · rintro ⟨c', hm, hr⟩
            rcases List.mem_cons.mp hm with rfl | hm'
            · rcases hr with h | h
              · exact absurd ((scanEnvFrom_iff change c'.envFrom).mpr h) h1
              · exact absurd ((scanEnv_iff change c'.env).mpr h) h2
            · exact ⟨c', hm', hr⟩

theorem deploymentMatches_iff (change : ChangeType) (d : DeploymentObj) :
    deploymentMatches change d = true ↔ hasExactRef change d :=
  scanContainers_iff change d.containers

theorem mem_queuedDeployments (change : ChangeType) (ds : List DeploymentObj)
    (d : DeploymentObj) :
    d ∈ queuedDeployments change ds ↔ d ∈ ds ∧ hasExactRef change d := by
  induction ds with
  | nil => simp [queuedDeployments]
  | cons d' rest ih =>
      by_cases h : deploymentMatches change d' = true
      · have hl : queuedDeployments change (d' :: rest) =
            d' :: queuedDeployments change rest := by
          simp [queuedDeployments, h]
        rw [hl]
        constructor
        · intro hm
          rcases List.mem_cons.mp hm with rfl | hm'
          · exact ⟨List.mem_cons_self d rest, (deploymentMatches_iff change d).mp h⟩
          · obtain ⟨hm2, hr⟩ := ih.mp hm'
            exact ⟨List.mem_cons_of_mem d' hm2, hr⟩
        · rintro ⟨hm, hr⟩
          rcases List.mem_cons.mp hm with rfl | hm'
          · exact List.mem_cons_self d _
          · exact List.mem_cons_of_mem d' (ih.mpr ⟨hm', hr⟩)
      · have hl : queuedDeployments change (d' :: rest) =
            queuedDeployments change rest := by
          simp [queuedDeployments, h]
        rw [hl, ih]
        constructor
        · rintro ⟨hm, hr⟩
          exact ⟨List.mem_cons_of_mem d' hm, hr⟩
        · rintro ⟨hm, hr⟩
          rcases List.mem_cons.mp hm with rfl | hm'
          · exact absurd ((deploymentMatches_iff change d).mpr hr) h
          · exact ⟨hm', hr⟩

theorem count_queuedDeployments (change : ChangeType) (ds : List DeploymentObj)
    (d : DeploymentObj) :
    List.count d (queuedDeployments change ds) ≤ List.count d ds := by
  induction ds with
  | nil => simp [queuedDeployments]
  | cons d' rest ih =>
      by_cases h : deploymentMatches change d' = true
      · have hl : queuedDeployments change (d' :: rest) =
            d' :: queuedDeployments change rest := by
          simp [queuedDeployments, h]
        rw [hl]
        by_cases hd : d = d'
        · subst hd
          simp only [List.count_cons, if_pos rfl]
          omega
        · simp only [List.count_cons, if_neg hd]
          omega
      · have hl : queuedDeployments change (d' :: rest) =
            queuedDeployments change rest := by
          simp [queuedDeployments, h]
        rw [hl]
        by_cases hd : d = d'
        · subst hd
          simp only [List.count_cons, if_pos rfl]
          omega
        · simp only [List.count_cons, if_neg hd]
          omega

/-- Claim C4 counterexample: when the Deployments List call fails, the
code does not log-and-abandon the occurrence; it evaluates to the
panicked outcome (panic(err) on src/main.go line 133), which terminates
the process. -/
theorem c4_list_failure_panics_counterexample :
    findAndQueueDeployments (ChangeType.mk "ConfigMap" "cfg-a") ListResult.err =
      ScanOutcome.panicked ∧
    ScanOutcome.panicked ≠
      ScanOutcome.completed ([] : List DeploymentObj) := by
  exact ⟨rfl, by decide⟩

/-- Claim C4 as amended: for every settled change, a failure of the
workload listing makes findAndQueueDeployments panic, terminating the
process, rather than logging and remaining live; no deployment is
queued and no retry occurs in that occurrence. -/
theorem c4_list_failure_panics (change : ChangeType) :
    findAndQueueDeployments change ListResult.err = ScanOutcome.panicked := rfl

/-- Claim C5: a deployment is queued by the dependency scan if and only
if it is in the listing and some main container holds a reference whose
kind and referenced name equal the settled change's exactly; each
deployment is queued at most once per settled change; and a deployment
with no matching reference is never queued. -/
theorem c5_scan_exact_match (change : ChangeType) (ds : List DeploymentObj)
    (d : DeploymentObj) :
    (d ∈ queuedDeployments change ds ↔ d ∈ ds ∧ hasExactRef change d) ∧
    List.count d (queuedDeployments change ds) ≤ List.count d ds ∧
    (¬ hasExactRef change d → d ∉ queuedDeployments change ds) := by
  refine ⟨mem_queuedDeployments change ds d, count_queuedDeployments change ds d, ?_⟩
  intro hn hm
  exact hn ((mem_queuedDeployments change ds d).mp hm).2

/-- Witness for C5 on concrete data: the deployment referencing the
prefix name app-config-2 has no exact reference to app-config and is not
queued by a scan over the three example deployments. -/
theorem c5_scan_exact_match_witness :
    ¬ hasExactRef chgA depNearName ∧
    depNearName ∉ queuedDeployments chgA [depMatching, depNearName, depOtherKind] :=
  ⟨by decide,
    (c5_scan_exact_match chgA [depMatching, depNearName, depOtherKind]
      depNearName).2.2 (by decide)⟩

theorem queueDeployment_eq_setA (D t : Nat) (dep : DeploymentObj)
    (m : List (DeploymentKey × Nat)) :
    queueDeployment D t dep m = setA m (mkDeploymentKey dep) (t + D) := by
  unfold queueDeployment
  cases lookupA m (mkDeploymentKey dep) <;> rfl

/-- Claim C6: queueDeployment debounces by the pair
(name, observedVersion): the call stores (or resets to) a countdown
expiring at t + D under exactly that key, leaves every other key
untouched — in particular an entry for the same name under a different
observed version, which therefore keeps its own independent countdown —
and the expiry callback removes the entry and invokes applyPatch exactly
once, for that pair. -/
theorem c6_queueDeployment_spec (D t : Nat) (dep : DeploymentObj) (k : DeploymentKey)
    (m : List (DeploymentKey × Nat)) (hk : k ≠ mkDeploymentKey dep) :
    mkDeploymentKey dep = DeploymentKey.mk dep.name dep.resourceVersion ∧
    lookupA (queueDeployment D t dep m) (mkDeploymentKey dep) = some (t + D) ∧
    lookupA (queueDeployment D t dep m) k = lookupA m k ∧
    (∀ v, v ≠ dep.resourceVersion →
      lookupA (queueDeployment D t dep m) (DeploymentKey.mk dep.name v) =
        lookupA m (DeploymentKey.mk dep.name v)) ∧
    lookupA (updateTimerFire (mkDeploymentKey dep) m).1 (mkDeploymentKey dep) = none ∧
    lookupA (updateTimerFire (mkDeploymentKey dep) m).1 k = lookupA m k ∧
    (updateTimerFire (mkDeploymentKey dep) m).2 = [mkDeploymentKey dep] := by
  refine ⟨rfl, ?_, ?_, ?_, ?_, ?_, rfl⟩
  · rw [queueDeployment_eq_setA]
    exact lookupA_setA_self m (mkDeploymentKey dep) (t + D)
  · rw [queueDeployment_eq_setA]
    exact lookupA_setA_other m (mkDeploymentKey dep) k (t + D) hk
  · intro v hv
    have hne : DeploymentKey.mk dep.name v ≠ mkDeploymentKey dep := by
      intro hcon
      exact hv (congrArg DeploymentKey.resourceVersion hcon)
    rw [queueDeployment_eq_setA]
    exact lookupA_setA_other m (mkDeploymentKey dep) _ (t + D) hne
  · exact lookupA_removeA_self m (mkDeploymentKey dep)
  · exact lookupA_removeA_other m (mkDeploymentKey dep) k hk

/-- Witness for C6 at a concrete state: the map holds a pending update
for (web, 100); queueing the same deployment at observed version 101
creates a fresh countdown under (web, 101) and leaves the stale
(web, 100) countdown untouched. -/
theorem c6_queueDeployment_spec_witness :
    lookupA (queueDeployment 5 7 depMatching [(DeploymentKey.mk "web" "100", 3)])
      (DeploymentKey.mk "web" "101") = some 12 ∧
    lookupA (queueDeployment 5 7 depMatching [(DeploymentKey.mk "web" "100", 3)])
      (DeploymentKey.mk "web" "100") = some 3 := by
  have h := c6_queueDeployment_spec 5 7 depMatching (DeploymentKey.mk "web" "100")
    [(DeploymentKey.mk "web" "100", 3)] (by decide)
  constructor
  · exact h.2.1
  · rw [h.2.2.1]
    decide

theorem setA_setA_self {κ α : Type} [DecidableEq κ]
    (m : List (κ × α)) (k : κ) (a b : α) :
    setA (setA m k a) k b = setA m k b := by
  induction m with
  | nil => simp [setA]
  | cons hd tl ih =>
      obtain ⟨k', a'⟩ := hd
      by_cases h : k' = k
      · subst h
        simp [setA]
      · simp [setA, h, ih]

/-- Claim C7: the state serialized as the patch target differs from the
baseline only in the timestamp annotation, created if absent, at exactly
the two metadata levels, both set to the same time now: name, resource
version, containers and replicas are unchanged, and every annotation key
other than annKey reads the same before and after at both levels; and
touching an already-touched deployment again equals touching the
original, so a second application only updates the timestamp value and
never duplicates or corrupts other fields. -/
theorem c7_patch_frame (now now2 : String) (d : FetchedDeployment) (k : String)
    (hk : k ≠ annKey) :
    (touchDeployment now d).name = d.name ∧
    (touchDeployment now d).resourceVersion = d.resourceVersion ∧
    (touchDeployment now d).containers = d.containers ∧
    (touchDeployment now d).replicas = d.replicas ∧
    lookupAnn (touchDeployment now d).annotations annKey = some now ∧
    lookupAnn (touchDeployment now d).templateAnnotations annKey = some now ∧
    lookupAnn (touchDeployment now d).annotations k = lookupAnn d.annotations k ∧
    lookupAnn (touchDeployment now d).templateAnnotations k =
      lookupAnn d.templateAnnotations k ∧
    touchDeployment now2 (touchDeployment now d) = touchDeployment now2 d := by
  refine ⟨rfl, rfl, rfl, rfl, ?_, ?_, ?_, ?_, ?_⟩
  · exact lookupA_setA_self _ annKey now
  · exact lookupA_setA_self _ annKey now
  · show lookupA (setA (d.annotations.getD []) annKey now) k = _
    rw [lookupA_setA_other _ annKey k now hk]
    cases d.annotations <;> simp [lookupAnn, Option.getD, lookupA]
  · show lookupA (setA (d.templateAnnotations.getD []) annKey now) k = _
    rw [lookupA_setA_other _ annKey k now hk]
    cases d.templateAnnotations <;> simp [lookupAnn, Option.getD, lookupA]
  · show FetchedDeployment.mk _ _ _ _ _ _ = _
    unfold touchDeployment
    simp [Option.getD, setA_setA_self]

/-- Witness for C7 on a concrete fetched deployment: the top-level
annotation map is created and stamped, the unrelated template annotation
key team is preserved, other fields are unchanged, and a second touch
equals touching the original once. -/
theorem c7_patch_frame_witness :
    ("team" : String) ≠ annKey ∧
    lookupAnn (touchDeployment "2024-01-01T00:00:00Z" depFetched).annotations annKey =
      some "2024-01-01T00:00:00Z" ∧
    lookupAnn (touchDeployment "2024-01-01T00:00:00Z" depFetched).templateAnnotations
      "team" = lookupAnn depFetched.templateAnnotations "team" ∧
    (touchDeployment "2024-01-01T00:00:00Z" depFetched).replicas = depFetched.replicas ∧
    touchDeployment "2024-01-02T00:00:00Z"
        (touchDeployment "2024-01-01T00:00:00Z" depFetched) =
      touchDeployment "2024-01-02T00:00:00Z" depFetched := by
  have h := c7_patch_frame "2024-01-01T00:00:00Z" "2024-01-02T00:00:00Z" depFetched
    "team" (by decide)
  exact ⟨by decide, h.2.2.2.2.1, h.2.2.2.2.2.2.2.1, h.2.2.2.1, h.2.2.2.2.2.2.2.2⟩

/-- Claim C8: a failure at any step of patchDeployment — the Get call,
either Marshal, the merge-patch computation, or the submission —
produces exactly the actions up to and including the failing step
followed by one error log naming the workload, so the occurrence is
abandoned at that step: every later step is skipped and in particular no
patch is submitted when any step before the submission fails; and for
every environment no action is ever performed twice (no retry) and the
occurrence ends in a log line, never a panic (every branch of the
function returns normally). -/
theorem c8_patch_error_handling (key : DeploymentKey) (dep : FetchedDeployment)
    (env : PatchEnv) :
    (env.getResult = StepResult.fail →
      patchDeployment key env = [PatchAction.fetch, PatchAction.logError key.name] ∧
      PatchAction.marshalBaseline ∉ patchDeployment key env ∧
      PatchAction.annotate ∉ patchDeployment key env ∧
      PatchAction.marshalTarget ∉ patchDeployment key env ∧
      PatchAction.createPatch ∉ patchDeployment key env ∧
      PatchAction.submit ∉ patchDeployment key env) ∧
    (env.getResult = StepResult.ok dep → env.marshalBaselineOk = false →
      patchDeployment key env =
        [PatchAction.fetch, PatchAction.marshalBaseline,
          PatchAction.logError dep.name] ∧
      PatchAction.annotate ∉ patchDeployment key env ∧
      PatchAction.marshalTarget ∉ patchDeployment key env ∧
      PatchAction.createPatch ∉ patchDeployment key env ∧
      PatchAction.submit ∉ patchDeployment key env) ∧
    (env.getResult = StepResult.ok dep → env.marshalBaselineOk = true →
        env.marshalTargetOk = false →
      patchDeployment key env =
        [PatchAction.fetch, PatchAction.marshalBaseline, PatchAction.annotate,
          PatchAction.marshalTarget, PatchAction.logError dep.name] ∧
      PatchAction.createPatch ∉ patchDeployment key env ∧
      PatchAction.submit ∉ patchDeployment key env) ∧
    (env.getResult = StepResult.ok dep → env.marshalBaselineOk = true →
        env.marshalTargetOk = true → env.createPatchOk = false →
      patchDeployment key env =
        [PatchAction.fetch, PatchAction.marshalBaseline, PatchAction.annotate,
          PatchAction.marshalTarget, PatchAction.createPatch,
          PatchAction.logError dep.name] ∧
      PatchAction.submit ∉ patchDeployment key env) ∧
    (env.getResult = StepResult.ok dep → env.marshalBaselineOk = true →
        env.marshalTargetOk = true → env.createPatchOk = true →
        env.submitOk = false →
      patchDeployment key env =
        [PatchAction.fetch, PatchAction.marshalBaseline, PatchAction.annotate,
          PatchAction.marshalTarget, PatchAction.createPatch, PatchAction.submit,
          PatchAction.logError dep.name]) ∧
    (∀ e2 : PatchEnv,
      (∀ a : PatchAction, List.count a (patchDeployment key e2) ≤ 1) ∧
      Option.map isLog (lastA (patchDeployment key e2)) = some true) := by
  refine ⟨?_, ?_, ?_, ?_, ?_, ?_⟩
  · intro hg
    simp [patchDeployment, hg]
  · intro hg hmb
    simp [patchDeployment, hg, hmb]
  · intro hg hmb hmt
    simp [patchDeployment, hg, hmb, hmt]
  · intro hg hmb hmt hcp
    simp [patchDeployment, hg, hmb, hmt, hcp]
  · intro hg hmb hmt hcp hs
    simp [patchDeployment, hg, hmb, hmt, hcp, hs]
  · intro e2
    obtain ⟨g, b1, b2, b3, b4⟩ := e2
    constructor
    · have hnd : (patchDeployment key (PatchEnv.mk g b1 b2 b3 b4)).Nodup := by
        cases g <;> cases b1 <;> cases b2 <;> cases b3 <;> cases b4 <;>
          simp [patchDeployment]
      exact fun a => List.nodup_iff_count_le_one.mp hnd a
    · cases g <;> cases b1 <;> cases b2 <;> cases b3 <;> cases b4 <;>
        simp [patchDeployment, lastA, isLog]

/-- Witness for C8: for deployment web, a failing merge-patch computation
yields exactly the steps up to the patch computation followed by one
error log naming web, with no patch submitted; and a failing Get yields
only the fetch and one error log. -/
theorem c8_patch_error_handling_witness :
    patchDeployment (DeploymentKey.mk "web" "101")
        (PatchEnv.mk (StepResult.ok depFetched) true true false true) =
      [PatchAction.fetch, PatchAction.marshalBaseline, PatchAction.annotate,
        PatchAction.marshalTarget, PatchAction.createPatch,
        PatchAction.logError "web"] ∧
    PatchAction.submit ∉ patchDeployment (DeploymentKey.mk "web" "101")
      (PatchEnv.mk (StepResult.ok depFetched) true true false true) ∧
    patchDeployment (DeploymentKey.mk "web" "101")
        (PatchEnv.mk StepResult.fail true true true true) =
      [PatchAction.fetch, PatchAction.logError "web"] := by
  have h1 := (c8_patch_error_handling (DeploymentKey.mk "web" "101") depFetched
    (PatchEnv.mk (StepResult.ok depFetched) true true false true)).2.2.2.1 rfl rfl rfl rfl
  have h2 := (c8_patch_error_handling (DeploymentKey.mk "web" "101") depFetched
    (PatchEnv.mk StepResult.fail true true true true)).1 rfl
  exact ⟨h1.1, h1.2, h2.1⟩

/-- Claim C9: the watch handlers discard the ok result of the type
assertion on the event object; an event of the expected concrete type
emits the descriptor with that object's name, while an event carrying any
other object type reaches the nil dereference of the name access,
crashing the process — so the crash branch is unreachable exactly when
every filtered event carries the watched resource's type. -/
theorem c9_type_assertion_discarded (m : ObjectMeta) (obj obj2 : WatchObject)
    (h1 : assertConfigMap obj = none) (h2 : assertSecret obj2 = none) :
    handleConfigMapEvent (WatchObject.configMapObj m) =
      HandlerOutcome.emitted (ChangeType.mk "ConfigMap" m.name) ∧
    handleSecretEvent (WatchObject.secretObj m) =
      HandlerOutcome.emitted (ChangeType.mk "Secret" m.name) ∧
    handleConfigMapEvent obj = HandlerOutcome.nilDereference ∧
    handleSecretEvent obj2 = HandlerOutcome.nilDereference := by
  refine ⟨rfl, rfl, ?_, ?_⟩
  · unfold handleConfigMapEvent
    rw [h1]
  · unfold handleSecretEvent
    rw [h2]

/-- Witness for C9: a Secret object on the ConfigMap stream and an
unrelated object on the Secret stream both crash; well-typed events emit
their descriptors. -/
theorem c9_type_assertion_discarded_witness :
    assertConfigMap (WatchObject.secretObj (ObjectMeta.mk "x")) = none ∧
    assertSecret WatchObject.otherObj = none ∧
    handleConfigMapEvent (WatchObject.configMapObj (ObjectMeta.mk "cfg-a")) =
      HandlerOutcome.emitted (ChangeType.mk "ConfigMap" "cfg-a") ∧
    handleConfigMapEvent (WatchObject.secretObj (ObjectMeta.mk "x")) =
      HandlerOutcome.nilDereference := by
  have h := c9_type_assertion_discarded (ObjectMeta.mk "cfg-a")
    (WatchObject.secretObj (ObjectMeta.mk "x")) WatchObject.otherObj rfl rfl
  exact ⟨rfl, rfl, h.1, h.2.2.1⟩

/-- Claim C10: the dependency scan ranges only over the pod template's
main container list, so a deployment whose only matching reference sits
in an init container is never queued. -/
theorem c10_initContainers_not_scanned (change : ChangeType) (ds : List DeploymentObj)
    (d : DeploymentObj)
    (hmain : ∀ c ∈ d.containers, ¬ containerRefs change c)
    (_hinit : ∃ c ∈ d.initContainers, containerRefs change c) :
    d ∉ queuedDeployments change ds := by
  intro hm
  obtain ⟨c, hc, hr⟩ := ((mem_queuedDeployments change ds d).mp hm).2
  exact hmain c hc hr

/-- Witness for C10: the deployment whose only app-config reference is in
an init container is not queued even when it is the whole listing. -/
theorem c10_initContainers_not_scanned_witness :
    (∀ c ∈ depInitOnly.containers, ¬ containerRefs chgA c) ∧
    (∃ c ∈ depInitOnly.initContainers, containerRefs chgA c) ∧
    depInitOnly ∉ queuedDeployments chgA [depInitOnly] :=
  ⟨by decide, by decide,
    c10_initContainers_not_scanned chgA [depInitOnly] depInitOnly
      (by decide) (by decide)⟩

end Configmaster
